import Mathlib

/-!
Verification model of the CSV column-mapping and upload pipeline of the
model-training page (`handleStartTraining` and its helpers).

The TypeScript source is translated shallowly:
* JS cell values (strings from Papa.parse, numbers, null) become `Value`;
  a JS object (`Record<string, any>`) becomes an ordered association list
  `List (String × Value)` whose keys are iterated in insertion order, with
  `jsSet` giving JS property-assignment semantics (update in place, else
  append) and `jsGet` property lookup.
* `header.trim().toLowerCase().replace(/[^a-z0-9]/g, "")` becomes
  `normalizeHeader`; JS `toLowerCase` is modelled at ASCII granularity
  (simple case folding, as the alias table and the regex are ASCII-only)
  and `trim` with the ASCII whitespace characters of `Char.isWhitespace`.
* The async handler becomes a pure function `handlerTrace` from an
  environment (the responses of the file reader, the CSV parser, the
  Supabase insert and the training endpoint) to the list of observable
  effects it performs, in program order; React state updates are replayed
  by the interpreter `runTrace`.  The wall-clock `[timestamp] ` prefix of
  `appendStatus` is abstracted away: log entries are stored as the message
  text passed to `appendStatus`.
-/

namespace NasaDoha

/-- A JS value as it appears in a parsed CSV row: a string, a number
(integers suffice for the properties considered), or `null`. -/
inductive Value where
  | str (s : String)
  | num (n : Int)
  | null
deriving DecidableEq, Repr

/-- A raw CSV row: original header strings paired with cell values, in
object-key insertion order. -/
abbrev RawRow := List (String × Value)

/-- JS object property read: first (unique) binding of the key. -/
def jsGet (m : RawRow) (k : String) : Option Value :=
  match m with
  | [] => none
  | (k2, v) :: rest => if k2 = k then some v else jsGet rest k

/-- JS object property assignment `m[k] = v`: overwrite in place when the
key exists, otherwise append the new binding at the end. -/
def jsSet (m : RawRow) (k : String) (v : Value) : RawRow :=
  match m with
  | [] => [(k, v)]
  | (k2, v2) :: rest => if k2 = k then (k, v) :: rest else (k2, v2) :: jsSet rest k v

/-- JS truthiness of a cell value (`""`, `0` and `null` are falsy). -/
def truthy : Value → Bool
  | .str s => decide (s ≠ "")
  | .num n => decide (n ≠ 0)
  | .null => false

/-- JS truthiness of an optional property (`undefined` is falsy). -/
def jsTruthy : Option Value → Bool
  | none => false
  | some v => truthy v

/-- The character class kept by `replace(/[^a-z0-9]/g, "")`. -/
def isLowerAlnum (c : Char) : Bool :=
  (decide ('a' ≤ c) && decide (c ≤ 'z')) || (decide ('0' ≤ c) && decide (c ≤ '9'))

/-- JS `String.prototype.trim` on a character list: drop whitespace from
both ends. -/
def jsTrimList (cs : List Char) : List Char :=
  ((cs.dropWhile Char.isWhitespace).reverse.dropWhile Char.isWhitespace).reverse

/-- JS `value.trim()` on a string. -/
def jsTrim (s : String) : String := String.mk (jsTrimList s.data)

/-- Header normalization of the source:
`header.trim().toLowerCase().replace(/[^a-z0-9]/g, "")`. -/
def normalizeHeader (h : String) : String :=
  String.mk (((jsTrimList h.data).map Char.toLower).filter isLowerAlnum)

/-- The `NORMALIZED_COLUMN_MAP` object literal, in source order. -/
def NORMALIZED_COLUMN_MAP : List (String × String) :=
  [("orbitalperioddays", "orbital_period_days"),
   ("planetradiusrearth", "planet_radius_rearth"),
   ("insolationfluxeflux", "insolation_flux_eflux"),
   ("equilibriumtempk", "equilibrium_temp_K"),
   ("stellarteffk", "stellar_teff_K"),
   ("stellarloggcgs", "stellar_logg_cgs"),
   ("stellarradiusrsun", "stellar_radius_rsun"),
   ("stellarmag", "stellar_mag"),
   ("radeg", "ra_deg"),
   ("decdeg", "dec_deg"),
   ("label", "label"),
   ("source", "source"),
   ("koiperiod", "orbital_period_days"),
   ("koiprad", "planet_radius_rearth"),
   ("koiinsol", "insolation_flux_eflux"),
   ("koiteq", "equilibrium_temp_K"),
   ("koisteff", "stellar_teff_K"),
   ("koislogg", "stellar_logg_cgs"),
   ("koisrad", "stellar_radius_rsun"),
   ("koikepmag", "stellar_mag"),
   ("koidisposition", "label"),
   ("plorbper", "orbital_period_days"),
   ("plrade", "planet_radius_rearth"),
   ("plinsol", "insolation_flux_eflux"),
   ("pleqt", "equilibrium_temp_K"),
   ("stteff", "stellar_teff_K"),
   ("stlogg", "stellar_logg_cgs"),
   ("strad", "stellar_radius_rsun"),
   ("sttmag", "stellar_mag"),
   ("syvmag", "stellar_mag"),
   ("tfopwgdisp", "label"),
   ("disposition", "label"),
   ("ra", "ra_deg"),
   ("dec", "dec_deg")]

/-- JS object-key lookup in an association list (keys are unique in the
object literal). -/
def tableLookup (k : String) : List (String × String) → Option String
  | [] => none
  | (k2, v) :: rest => if k2 = k then some v else tableLookup k rest

/-- `NORMALIZED_COLUMN_MAP[normalizedKey]` (`undefined` becomes `none`;
the table's values are nonempty strings, so `if (dbKey)` is `isSome`). -/
def lookupColumn (k : String) : Option String := tableLookup k NORMALIZED_COLUMN_MAP

/-- The Column Mapper: normalize a raw header, then look it up. -/
def mapColumn (h : String) : Option String := lookupColumn (normalizeHeader h)

/-- One step of the pre-flight `forEach` over `csvHeaders`: skip empty
headers (`if (!header) return`), add the mapped database key to the
`mappedHeaders` set (insertion-ordered, deduplicated, as a JS `Set`), or
push the raw header onto `unmappedHeaders`. -/
def preflightStep (acc : List String × List String) (h : String) :
    List String × List String :=
  if h = "" then acc
  else
    match mapColumn h with
    | some db => (if db ∈ acc.1 then acc.1 else acc.1 ++ [db], acc.2)
    | none => (acc.1, acc.2 ++ [h])

/-- The pre-flight pass over `csvHeaders`: the set of mapped database
keys and the list of unmapped raw headers. -/
def preflight (headers : List String) : List String × List String :=
  headers.foldl preflightStep ([], [])

/-- The per-cell conversion of the Row Transformer:
`typeof value === "string" && value.trim() === "" ? null : value`. -/
def transformValue (v : Value) : Value :=
  match v with
  | .str s => if jsTrim s = "" then .null else .str s
  | .num n => .num n
  | .null => .null

/-- One iteration of the `for (const rawKey in row)` loop of the Row
Transformer: keep the column only when its key maps, converting blank
strings to null. -/
def mapRowStep (acc : RawRow) (kv : String × Value) : RawRow :=
  match mapColumn kv.1 with
  | some dbKey => jsSet acc dbKey (transformValue kv.2)
  | none => acc

/-- The whole loop of the Row Transformer over one raw row. -/
def mapRowRaw (row : RawRow) : RawRow :=
  row.foldl mapRowStep []

/-- One element of `rowsToInsert`: the mapped row, with
`if (!mappedRow.source) mappedRow.source = "uploaded_csv"`. -/
def mapRow (row : RawRow) : RawRow :=
  if jsTruthy (jsGet (mapRowRaw row) "source") then mapRowRaw row
  else jsSet (mapRowRaw row) "source" (.str "uploaded_csv")

/-! ## The handler as an effect trace

`handleStartTraining` is async but strictly sequential; each of its
observable actions is an `Event`, and the handler run in a given
environment is the list of events it performs, in program order. -/

/-- One observable effect of the handler: a React state update, or the
start of one of the two network operations. -/
inductive Event where
  | clearLog
  | clearMetrics
  | append (msg : String)
  | setTraining (b : Bool)
  | setMetrics
  | netInsert
  | netTrain
deriving DecidableEq, Repr

/-- Result of `await supabase.from("exoplanet_datasets").insert(...)`:
resolved with no error, resolved with an error object carrying a message,
or rejected (the awaited promise threw). -/
inductive InsertRes where
  | ok
  | errRes (msg : String)
  | threw (msg : String)
deriving DecidableEq, Repr

/-- Result of the `fetch` to `/api/train` followed by `response.json()`:
either the chain threw (network failure or bad JSON), or a response
arrived with a success flag (`response.ok`), an optional `error` field of
the JSON body, and whether the body has a `metrics_json` field. -/
inductive TrainRes where
  | threw (msg : String)
  | responded (ok : Bool) (errField : Option String) (hasMetricsJson : Bool)
deriving DecidableEq, Repr

/-- The environment a single submission runs against: whether a file is
selected, the outcome of `selectedFile.text()` (`some msg` when it
rejected), the parser's error list and parsed headers and rows, and the
two network responses. -/
structure Env where
  fileSelected : Bool
  textRes : Option String
  parseErrors : List String
  headers : List String
  rows : List RawRow
  insertRes : InsertRes
  trainRes : TrainRes
deriving Repr

/-- `data.error || "Unknown error occurred"`: the message of the error
thrown on a non-ok response (a missing or empty `error` field is falsy). -/
def errMsgOf (errField : Option String) : String :=
  match errField with
  | some s => if s = "" then "Unknown error occurred" else s
  | none => "Unknown error occurred"

/-- The catch block of the training call: the transient message
"Failed to fetch" is filtered from the log, anything else is reported. -/
def trainCatch (m : String) : List Event :=
  if m = "Failed to fetch" then [] else [.append ("❌ Error: " ++ m)]

/-- Events of the second try block after the `fetch` was issued: throw on
a non-ok response (caught by `trainCatch`), otherwise report completion
and load metrics when present. -/
def trainPhase (r : TrainRes) : List Event :=
  match r with
  | .threw m => trainCatch m
  | .responded ok errField hasMJ =>
    if ok then
      [.append "✅ Training complete! New model saved successfully."] ++
      (if hasMJ then [.setMetrics, .append "📊 Detailed metrics loaded."] else [])
    else trainCatch (errMsgOf errField)

/-- Events from the Supabase insert onward: an insert error or a thrown
insert aborts the submission; on success the multipart POST to
`/api/train` is issued and its `finally` clause resets `isTraining`. -/
def insertPhase (env : Env) : List Event :=
  match env.insertRes with
  | .threw m => [.append ("❌ Supabase table upload error: " ++ m), .setTraining false]
  | .errRes m => [.append ("❌ Supabase table insert error: " ++ m), .setTraining false]
  | .ok =>
    [.append "✅ Data uploaded to Supabase table.",
     .append "Uploading file and starting model training...",
     .netTrain] ++ trainPhase env.trainRes ++ [.setTraining false]

/-- First critical-error message of the pre-flight check. -/
def criticalMsg1 : String :=
  "❌ CRITICAL ERROR: The CSV file does not contain a recognizable column for 'equilibrium_temp_K'."

/-- Second critical-error message of the pre-flight check. -/
def criticalMsg2 : String :=
  "Please check the 'Unmapped columns' list above and ensure your file has a column like 'equilibrium_temp_k', 'koi_teq', or 'pl_eqt'."

/-- Events of the pre-flight check and beyond: report counts, report the
unmapped list when nonempty, stop with the critical errors when no header
mapped to `equilibrium_temp_K`, else transform the rows and start the
bulk insert. -/
def preflightPhase (env : Env) : List Event :=
  [.append "Running pre-flight check on CSV headers...",
   .append ("Found " ++ toString env.headers.length ++ " columns. Mapped "
     ++ toString (preflight env.headers).1.length ++ ".")] ++
  (if (preflight env.headers).2.isEmpty then []
   else [.append ("⚠️ Unmapped columns: ["
     ++ String.intercalate ", " (preflight env.headers).2 ++ "]")]) ++
  (if "equilibrium_temp_K" ∈ (preflight env.headers).1 then
     [.append "✅ Pre-flight check passed. All critical columns found.",
      .append ("Mapped " ++ toString (env.rows.map mapRow).length
        ++ " rows. Uploading to Supabase..."),
      .netInsert] ++ insertPhase env
   else [.append criticalMsg1, .append criticalMsg2, .setTraining false])

/-- Events of the first try block: a rejected `selectedFile.text()` is
caught by the catch at the end of the block, a parse error aborts with
the first error message, otherwise the pre-flight check runs. -/
def parsePhase (env : Env) : List Event :=
  match env.textRes with
  | some m => [.append ("❌ Supabase table upload error: " ++ m), .setTraining false]
  | none =>
    match env.parseErrors with
    | e :: _ => [.append ("❌ CSV parse error: " ++ e), .setTraining false]
    | [] => preflightPhase env

/-- The whole of `handleStartTraining`, as the list of effects performed
in the given environment. -/
def handlerTrace (env : Env) : List Event :=
  if env.fileSelected = false then [.append "Error: Please select a file first"]
  else
    [.setTraining true, .clearLog, .clearMetrics,
     .append "Starting training process...",
     .append "Parsing CSV file..."] ++ parsePhase env

/-- The React state the handler updates: the status log (messages without
the abstracted timestamp prefix), the in-flight flag and whether a
metrics report is loaded. -/
structure UIState where
  log : List String
  isTraining : Bool
  hasMetrics : Bool
deriving DecidableEq, Repr

/-- Replay one event on the UI state. -/
def stepEvent (s : UIState) : Event → UIState
  | .clearLog => { s with log := [] }
  | .clearMetrics => { s with hasMetrics := false }
  | .append m => { s with log := s.log ++ [m] }
  | .setTraining b => { s with isTraining := b }
  | .setMetrics => { s with hasMetrics := true }
  | .netInsert => s
  | .netTrain => s

/-- Replay a trace on the UI state. -/
def runTrace (s : UIState) (tr : List Event) : UIState := tr.foldl stepEvent s

/-- The messages appended by a trace, in order. -/
def appendsOf (tr : List Event) : List String :=
  tr.filterMap (fun e => match e with | .append m => some m | _ => none)

/-- The idle UI state before a submission. -/
def initState : UIState := ⟨[], false, false⟩

/-! ## Definitions taken from the spec's words (for refinement claims) -/

/-- Modelled from the spec: the case-folded alphanumeric character
sequence of a header — used to state that headers differing only in
case, whitespace or punctuation get the same canonical field.  Compared
against the source's `normalizeHeader`. -/
def foldedAlnum (h : String) : List Char :=
  (h.data.map Char.toLower).filter isLowerAlnum

/-! ## The multipart form of the training request -/

/-- The hyperparameter input values read from the form at submit time
(`form.cv_folds.value` and friends are raw input strings). -/
structure FormState where
  cv_folds : String
  rf_estimators : String
  xgb_estimators : String
  lgbm_estimators : String
  xgb_max_depth : String
  lgbm_max_depth : String
  learning_rate : String
deriving DecidableEq, Repr

/-- A value appended to the `FormData`: the raw file, the numeric
train/test fraction (the JS number `trainTestSplit / 100`, modelled as an
exact rational and stringified on the wire), or a raw input string. -/
inductive FormVal where
  | file
  | frac (q : ℚ)
  | txt (s : String)
deriving DecidableEq

/-- `trainTestSplit / 100`, the 0–1 fraction sent as `train_test_split`. -/
def splitFraction (t : ℕ) : ℚ := (t : ℚ) / 100

/-- The `FormData` built before the training request, in append order. -/
def buildFormData (split : ℕ) (f : FormState) : List (String × FormVal) :=
  [("file", .file),
   ("train_test_split", .frac (splitFraction split)),
   ("cv_folds", .txt f.cv_folds),
   ("rf_estimators", .txt f.rf_estimators),
   ("xgb_estimators", .txt f.xgb_estimators),
   ("lgbm_estimators", .txt f.lgbm_estimators),
   ("xgb_max_depth", .txt f.xgb_max_depth),
   ("lgbm_max_depth", .txt f.lgbm_max_depth),
   ("learning_rate", .txt f.learning_rate)]

/-! ## Helper lemmas on the JS object model -/

theorem jsGet_jsSet_same (m : RawRow) (k : String) (v : Value) :
    jsGet (jsSet m k v) k = some v := by
  induction m with
  | nil => simp [jsSet, jsGet]
  | cons kv rest ih =>
    obtain ⟨k2, v2⟩ := kv
    by_cases h : k2 = k
    · simp [jsSet, jsGet, h]
    · simp [jsSet, jsGet, h, ih]

theorem mem_keys_jsSet (m : RawRow) (k : String) (v : Value) (k2 : String)
    (h : k2 ∈ (jsSet m k v).map Prod.fst) :
    k2 = k ∨ k2 ∈ m.map Prod.fst := by
  induction m with
  | nil => simp [jsSet] at h; exact Or.inl h
  | cons kv rest ih =>
    obtain ⟨k3, v3⟩ := kv
    by_cases hk : k3 = k
    · simp [jsSet, hk] at h
      rcases h with h | h
      · exact Or.inl h
      · exact Or.inr (by simp [h])
    · simp [jsSet, hk] at h
      rcases h with h | h
      · exact Or.inr (by simp [h])
      · rcases ih (by simpa using h) with h2 | h2
        · exact Or.inl h2
        · exact Or.inr (by simp; exact Or.inr (by simpa using h2))

theorem tableLookup_mem_range (k v : String) :
    ∀ l : List (String × String), tableLookup k l = some v → v ∈ l.map Prod.snd := by
  intro l
  induction l with
  | nil => intro h; simp [tableLookup] at h
  | cons kv rest ih =>
    obtain ⟨k2, v2⟩ := kv
    intro h
    by_cases hk : k2 = k
    · simp [tableLookup, hk] at h
      simp [h]
    · simp [tableLookup, hk] at h
      simp [ih h]

/-- Every key of the loop accumulator stays a canonical field name. -/
theorem mem_keys_foldl_mapRowStep (row : RawRow) :
    ∀ acc : RawRow,
      (∀ k ∈ acc.map Prod.fst, k ∈ NORMALIZED_COLUMN_MAP.map Prod.snd) →
      ∀ k ∈ (row.foldl mapRowStep acc).map Prod.fst,
        k ∈ NORMALIZED_COLUMN_MAP.map Prod.snd := by
  induction row with
  | nil => intro acc hacc k hk; exact hacc k hk
  | cons kv rest ih =>
    intro acc hacc k hk
    refine ih (mapRowStep acc kv) ?_ k hk
    intro k2 hk2
    unfold mapRowStep at hk2
    rcases hmc : mapColumn kv.1 with _ | db
    · rw [hmc] at hk2; exact hacc k2 hk2
    · rw [hmc] at hk2
      rcases mem_keys_jsSet acc db (transformValue kv.2) k2 hk2 with h | h
      · subst h; exact tableLookup_mem_range _ _ _ hmc
      · exact hacc k2 h

/-- Every key of a transformed row is a canonical field name or the
injected "source" key. -/
theorem mem_keys_mapRow (row : RawRow) (k : String)
    (hk : k ∈ (mapRow row).map Prod.fst) :
    k ∈ NORMALIZED_COLUMN_MAP.map Prod.snd ∨ k = "source" := by
  unfold mapRow at hk
  split at hk
  · exact Or.inl (mem_keys_foldl_mapRowStep row [] (by simp) k hk)
  · rcases mem_keys_jsSet _ _ _ k hk with h | h
    · exact Or.inr h
    · exact Or.inl (mem_keys_foldl_mapRowStep row [] (by simp) k h)

/-! ## Helper lemmas on header normalization -/

theorem toLower_whitespace_not_alnum (c : Char) (h : c.isWhitespace = true) :
    isLowerAlnum (Char.toLower c) = false := by
  have h2 : ((c = ' ' ∨ c = '\t') ∨ c = '\x0d') ∨ c = '\n' := by
    simpa [Char.isWhitespace] using h
  rcases h2 with ((rfl | rfl) | rfl) | rfl <;> decide

theorem filter_lower_dropWhile (cs : List Char) :
    ((cs.dropWhile Char.isWhitespace).map Char.toLower).filter isLowerAlnum
      = (cs.map Char.toLower).filter isLowerAlnum := by
  induction cs with
  | nil => rfl
  | cons c rest ih =>
    by_cases hw : c.isWhitespace
    · rw [List.dropWhile_cons_of_pos hw, ih]
      simp [List.filter_cons, toLower_whitespace_not_alnum c hw]
    · rw [List.dropWhile_cons_of_neg (by simpa using hw)]

theorem jsTrimList_lower_filter (cs : List Char) :
    ((jsTrimList cs).map Char.toLower).filter isLowerAlnum
      = (cs.map Char.toLower).filter isLowerAlnum := by
  unfold jsTrimList
  rw [List.map_reverse, List.filter_reverse, filter_lower_dropWhile,
    ← List.filter_reverse, ← List.map_reverse, List.reverse_reverse,
    filter_lower_dropWhile]

/-- The source's normalization computes exactly the case-folded
alphanumeric character sequence: the `trim` step is absorbed by the
strip-non-alphanumerics step. -/
theorem normalizeHeader_eq_foldedAlnum (h : String) :
    normalizeHeader h = String.mk (foldedAlnum h) := by
  unfold normalizeHeader foldedAlnum
  rw [jsTrimList_lower_filter]

/-! ## Helper lemmas on the pre-flight check -/

theorem mem_preflight_fold (hs : List String) :
    ∀ acc : List String × List String, ∀ d,
      d ∈ (hs.foldl preflightStep acc).1 →
      d ∈ acc.1 ∨ ∃ h ∈ hs, mapColumn h = some d := by
  induction hs with
  | nil => intro acc d hd; exact Or.inl hd
  | cons h rest ih =>
    intro acc d hd
    rw [List.foldl_cons] at hd
    rcases ih (preflightStep acc h) d hd with h1 | h1
    · by_cases he : h = ""
      · simp [preflightStep, he] at h1; exact Or.inl h1
      · rcases hmc : mapColumn h with _ | db
        · simp [preflightStep, he, hmc] at h1; exact Or.inl h1
        · by_cases hdd : db ∈ acc.1
          · simp [preflightStep, he, hmc, hdd] at h1; exact Or.inl h1
          · simp [preflightStep, he, hmc, hdd] at h1
            rcases h1 with h1 | h1
            · exact Or.inl h1
            · exact Or.inr ⟨h, by simp, by rw [hmc, h1]⟩
    · obtain ⟨h2, hh2, hm2⟩ := h1
      exact Or.inr ⟨h2, by simp [hh2], hm2⟩

/-- A canonical field is in the mapped set only when some header maps to
it. -/
theorem mem_preflight (hs : List String) (d : String)
    (hd : d ∈ (preflight hs).1) : ∃ h ∈ hs, mapColumn h = some d := by
  rcases mem_preflight_fold hs ([], []) d hd with h | h
  · simp at h
  · exact h

/-! ## Helper lemmas on the handler trace -/

theorem clearLog_not_mem_trainCatch (m : String) :
    Event.clearLog ∉ trainCatch m := by
  unfold trainCatch; split <;> simp

theorem clearLog_not_mem_trainPhase (r : TrainRes) :
    Event.clearLog ∉ trainPhase r := by
  rcases r with m | ⟨ok, errField, hMJ⟩
  · exact clearLog_not_mem_trainCatch m
  · rcases ok with _ | _
    · simpa [trainPhase] using clearLog_not_mem_trainCatch (errMsgOf errField)
    · rcases hMJ with _ | _ <;> simp [trainPhase]

theorem clearLog_not_mem_insertPhase (env : Env) :
    Event.clearLog ∉ insertPhase env := by
  unfold insertPhase
  rcases env.insertRes with _ | m | m
  · intro hm
    rcases List.mem_append.1 hm with h | h
    · rcases List.mem_append.1 h with h2 | h2
      · simp at h2
      · exact clearLog_not_mem_trainPhase _ h2
    · simp at h
  · simp
  · simp

theorem clearLog_not_mem_preflightPhase (env : Env) :
    Event.clearLog ∉ preflightPhase env := by
  unfold preflightPhase
  intro hm
  rcases List.mem_append.1 hm with h | h
  · rcases List.mem_append.1 h with h2 | h2
    · simp at h2
    · revert h2; split <;> simp
  · revert h; split
    · intro h2
      rcases List.mem_append.1 h2 with h3 | h3
      · simp at h3
      · exact clearLog_not_mem_insertPhase env h3
    · simp

theorem clearLog_not_mem_parsePhase (env : Env) :
    Event.clearLog ∉ parsePhase env := by
  unfold parsePhase
  rcases env.textRes with _ | m
  · rcases env.parseErrors with _ | ⟨e, rest⟩
    · exact clearLog_not_mem_preflightPhase env
    · simp
  · simp

theorem runTrace_append (s : UIState) (t1 t2 : List Event) :
    runTrace s (t1 ++ t2) = runTrace (runTrace s t1) t2 :=
  List.foldl_append stepEvent s t1 t2

/-- Replaying a trace that never clears the log only appends to it. -/
theorem runTrace_log_no_clear (tr : List Event) (h : Event.clearLog ∉ tr)
    (s : UIState) : (runTrace s tr).log = s.log ++ appendsOf tr := by
  induction tr generalizing s with
  | nil => simp [runTrace, appendsOf]
  | cons e rest ih =>
    have h2 : Event.clearLog ∉ rest := fun hm => h (List.mem_cons_of_mem _ hm)
    have hrun : runTrace s (e :: rest) = runTrace (stepEvent s e) rest := rfl
    cases e with
    | clearLog => exact absurd (List.mem_cons_self _ _) h
    | clearMetrics => rw [hrun, ih h2]; simp [stepEvent, appendsOf]
    | append m => rw [hrun, ih h2]; simp [stepEvent, appendsOf]
    | setTraining b => rw [hrun, ih h2]; simp [stepEvent, appendsOf]
    | setMetrics => rw [hrun, ih h2]; simp [stepEvent, appendsOf]
    | netInsert => rw [hrun, ih h2]; simp [stepEvent, appendsOf]
    | netTrain => rw [hrun, ih h2]; simp [stepEvent, appendsOf]

/-- A trace that ends by resetting `isTraining` leaves it false. -/
theorem runTrace_isTraining_end (s : UIState) (tr : List Event)
    (h : ∃ t, tr = t ++ [Event.setTraining false]) :
    (runTrace s tr).isTraining = false := by
  obtain ⟨t, rfl⟩ := h
  rw [runTrace_append]
  rfl

theorem shape_trainCatch (m : String) :
    ∀ e ∈ trainCatch m, ∃ m2, e = Event.append m2 := by
  unfold trainCatch; split
  · simp
  · intro e he; simp at he; exact ⟨_, he⟩

theorem shape_trainPhase (r : TrainRes) :
    ∀ e ∈ trainPhase r, (∃ m, e = Event.append m) ∨ e = Event.setMetrics := by
  rcases r with m | ⟨ok, errField, hMJ⟩
  · intro e he; exact Or.inl (shape_trainCatch m e he)
  · rcases ok with _ | _
    · intro e he
      exact Or.inl (shape_trainCatch (errMsgOf errField) e (by simpa [trainPhase] using he))
    · rcases hMJ with _ | _
      · intro e he; simp [trainPhase] at he; subst he; exact Or.inl ⟨_, rfl⟩
      · intro e he; simp [trainPhase] at he
        rcases he with rfl | rfl | rfl
        · exact Or.inl ⟨_, rfl⟩
        · exact Or.inr rfl
        · exact Or.inl ⟨_, rfl⟩

theorem shape_insertPhase (env : Env) :
    ∀ e ∈ insertPhase env,
      (∃ m, e = Event.append m) ∨ e = Event.setMetrics
        ∨ e = Event.setTraining false ∨ e = Event.netTrain := by
  unfold insertPhase
  rcases env.insertRes with _ | m | m
  · intro e he
    rcases List.mem_append.1 he with h | h
    · rcases List.mem_append.1 h with h2 | h2
      · simp at h2
        rcases h2 with rfl | rfl | rfl
        · exact Or.inl ⟨_, rfl⟩
        · exact Or.inl ⟨_, rfl⟩
        · exact Or.inr (Or.inr (Or.inr rfl))
      · rcases shape_trainPhase _ e h2 with h3 | h3
        · exact Or.inl h3
        · exact Or.inr (Or.inl h3)
    · simp at h; subst h; exact Or.inr (Or.inr (Or.inl rfl))
  · intro e he
    simp at he
    rcases he with rfl | rfl
    · exact Or.inl ⟨_, rfl⟩
    · exact Or.inr (Or.inr (Or.inl rfl))
  · intro e he
    simp at he
    rcases he with rfl | rfl
    · exact Or.inl ⟨_, rfl⟩
    · exact Or.inr (Or.inr (Or.inl rfl))

theorem shape_preflightPhase (env : Env) :
    ∀ e ∈ preflightPhase env,
      e = Event.netInsert ∨ e ∈ insertPhase env
        ∨ (∃ m, e = Event.append m) ∨ e = Event.setTraining false := by
  unfold preflightPhase
  intro e he
  rcases List.mem_append.1 he with h | h
  · rcases List.mem_append.1 h with h2 | h2
    · simp at h2
      rcases h2 with rfl | rfl
      · exact Or.inr (Or.inr (Or.inl ⟨_, rfl⟩))
      · exact Or.inr (Or.inr (Or.inl ⟨_, rfl⟩))
    · revert h2; split
      · simp
      · intro h2; simp at h2; subst h2
        exact Or.inr (Or.inr (Or.inl ⟨_, rfl⟩))
  · revert h; split
    · intro h2
      rcases List.mem_append.1 h2 with h3 | h3
      · simp at h3
        rcases h3 with rfl | rfl | rfl
        · exact Or.inr (Or.inr (Or.inl ⟨_, rfl⟩))
        · exact Or.inr (Or.inr (Or.inl ⟨_, rfl⟩))
        · exact Or.inl rfl
      · exact Or.inr (Or.inl h3)
    · intro h2; simp at h2
      rcases h2 with rfl | rfl | rfl
      · exact Or.inr (Or.inr (Or.inl ⟨_, rfl⟩))
      · exact Or.inr (Or.inr (Or.inl ⟨_, rfl⟩))
      · exact Or.inr (Or.inr (Or.inr rfl))

theorem shape_parsePhase (env : Env) :
    ∀ e ∈ parsePhase env,
      e = Event.netInsert ∨ e ∈ insertPhase env
        ∨ (∃ m, e = Event.append m) ∨ e = Event.setTraining false := by
  unfold parsePhase
  rcases env.textRes with _ | m
  · rcases env.parseErrors with _ | ⟨e2, rest⟩
    · exact shape_preflightPhase env
    · intro e he; simp at he
      rcases he with rfl | rfl
      · exact Or.inr (Or.inr (Or.inl ⟨_, rfl⟩))
      · exact Or.inr (Or.inr (Or.inr rfl))
  · intro e he; simp at he
    rcases he with rfl | rfl
    · exact Or.inr (Or.inr (Or.inl ⟨_, rfl⟩))
    · exact Or.inr (Or.inr (Or.inr rfl))

theorem shape_handlerTrace (env : Env) :
    ∀ e ∈ handlerTrace env,
      e = Event.netInsert ∨ e ∈ insertPhase env
        ∨ (∃ m, e = Event.append m) ∨ (∃ b, e = Event.setTraining b)
        ∨ e = Event.clearLog ∨ e = Event.clearMetrics := by
  unfold handlerTrace
  split
  · intro e he; simp at he; subst he
    exact Or.inr (Or.inr (Or.inl ⟨_, rfl⟩))
  · intro e he
    rcases List.mem_append.1 he with h | h
    · simp at h
      rcases h with rfl | rfl | rfl | rfl | rfl
      · exact Or.inr (Or.inr (Or.inr (Or.inl ⟨_, rfl⟩)))
      · exact Or.inr (Or.inr (Or.inr (Or.inr (Or.inl rfl))))
      · exact Or.inr (Or.inr (Or.inr (Or.inr (Or.inr rfl))))
      · exact Or.inr (Or.inr (Or.inl ⟨_, rfl⟩))
      · exact Or.inr (Or.inr (Or.inl ⟨_, rfl⟩))
    · rcases shape_parsePhase env e h with h2 | h2 | h2 | h2
      · exact Or.inl h2
      · exact Or.inr (Or.inl h2)
      · exact Or.inr (Or.inr (Or.inl h2))
      · exact Or.inr (Or.inr (Or.inr (Or.inl ⟨_, h2⟩)))

/-- On a submission that passes parsing and the pre-flight check, the
trace is the start-up events, a middle of log appends (and the metrics
reset), the start of the bulk insert, and the insert phase. -/
theorem handlerTrace_path (env : Env) (hf : env.fileSelected = true)
    (htx : env.textRes = none) (hp : env.parseErrors = [])
    (hq : "equilibrium_temp_K" ∈ (preflight env.headers).1) :
    ∃ t, handlerTrace env =
        [Event.setTraining true, Event.clearLog] ++ t ++ [Event.netInsert]
          ++ insertPhase env ∧
      ∀ e ∈ t, (∃ m, e = Event.append m) ∨ e = Event.clearMetrics := by
  refine ⟨[Event.clearMetrics,
      Event.append "Starting training process...",
      Event.append "Parsing CSV file...",
      Event.append "Running pre-flight check on CSV headers...",
      Event.append ("Found " ++ toString env.headers.length ++ " columns. Mapped "
        ++ toString (preflight env.headers).1.length ++ ".")] ++
    (if (preflight env.headers).2.isEmpty then []
     else [Event.append ("⚠️ Unmapped columns: ["
       ++ String.intercalate ", " (preflight env.headers).2 ++ "]")]) ++
    [Event.append "✅ Pre-flight check passed. All critical columns found.",
     Event.append ("Mapped " ++ toString (env.rows.map mapRow).length
       ++ " rows. Uploading to Supabase...")], ?_, ?_⟩
  · simp only [handlerTrace, hf, parsePhase, htx, hp, preflightPhase, if_pos hq]
    simp
  · intro e he
    rcases List.mem_append.1 he with h | h
    · rcases List.mem_append.1 h with h1 | h1
      · simp at h1
        rcases h1 with rfl | rfl | rfl | rfl | rfl
        · exact Or.inr rfl
        · exact Or.inl ⟨_, rfl⟩
        · exact Or.inl ⟨_, rfl⟩
        · exact Or.inl ⟨_, rfl⟩
        · exact Or.inl ⟨_, rfl⟩
      · revert h1; split
        · simp
        · intro h1; simp at h1; subst h1; exact Or.inl ⟨_, rfl⟩
    · simp at h
      rcases h with rfl | rfl
      · exact Or.inl ⟨_, rfl⟩
      · exact Or.inl ⟨_, rfl⟩

theorem count_netInsert_insertPhase (env : Env) :
    (insertPhase env).count Event.netInsert = 0 := by
  rw [List.count_eq_zero]
  intro hm
  rcases shape_insertPhase env _ hm with ⟨m, h⟩ | h | h | h <;> simp at h

theorem count_netInsert_handlerTrace (env : Env) :
    (handlerTrace env).count Event.netInsert ≤ 1 := by
  unfold handlerTrace
  split
  · simp
  · rw [List.count_append]
    have h0 : ([Event.setTraining true, Event.clearLog, Event.clearMetrics,
        Event.append "Starting training process...",
        Event.append "Parsing CSV file..."]).count Event.netInsert = 0 := by
      simp [List.count_cons]
    rw [h0, Nat.zero_add]
    unfold parsePhase
    rcases env.textRes with _ | m
    · rcases env.parseErrors with _ | ⟨e2, rest⟩
      · unfold preflightPhase
        rw [List.count_append, List.count_append]
        have h1 : ∀ l : List Event, (∀ e ∈ l, ∃ m2, e = Event.append m2) →
            l.count Event.netInsert = 0 := by
          intro l hl
          rw [List.count_eq_zero]
          intro hm
          obtain ⟨m2, hm2⟩ := hl _ hm
          simp at hm2
        rw [h1 _ (by intro e he; simp at he; rcases he with rfl | rfl <;> exact ⟨_, rfl⟩)]
        rw [h1 _ (by
          intro e he
          revert he; split
          · simp
          · intro he; simp at he; subst he; exact ⟨_, rfl⟩)]
        simp only [Nat.zero_add]
        split
        · rw [List.count_append, count_netInsert_insertPhase]
          simp [List.count_cons]
        · simp [List.count_cons]
      · simp [List.count_cons]
    · simp [List.count_cons]

theorem count_netTrain_handlerTrace (env : Env) :
    (handlerTrace env).count Event.netTrain ≤ 1 := by
  have hins : (insertPhase env).count Event.netTrain ≤ 1 := by
    unfold insertPhase
    rcases env.insertRes with _ | m | m
    · rw [List.count_append, List.count_append]
      have h1 : (trainPhase env.trainRes).count Event.netTrain = 0 := by
        rw [List.count_eq_zero]
        intro hm
        rcases shape_trainPhase _ _ hm with ⟨m2, h⟩ | h <;> simp at h
      rw [h1]
      simp [List.count_cons]
    · simp [List.count_cons]
    · simp [List.count_cons]
  unfold handlerTrace
  split
  · simp
  · rw [List.count_append]
    have h0 : ([Event.setTraining true, Event.clearLog, Event.clearMetrics,
        Event.append "Starting training process...",
        Event.append "Parsing CSV file..."]).count Event.netTrain = 0 := by
      simp [List.count_cons]
    rw [h0, Nat.zero_add]
    unfold parsePhase
    rcases env.textRes with _ | m
    · rcases env.parseErrors with _ | ⟨e2, rest⟩
      · unfold preflightPhase
        rw [List.count_append, List.count_append]
        have h1 : ∀ l : List Event, (∀ e ∈ l, ∃ m2, e = Event.append m2) →
            l.count Event.netTrain = 0 := by
          intro l hl
          rw [List.count_eq_zero]
          intro hm
          obtain ⟨m2, hm2⟩ := hl _ hm
          simp at hm2
        rw [h1 _ (by intro e he; simp at he; rcases he with rfl | rfl <;> exact ⟨_, rfl⟩)]
        rw [h1 _ (by
          intro e he
          revert he; split
          · simp
          · intro he; simp at he; subst he; exact ⟨_, rfl⟩)]
        simp only [Nat.zero_add]
        split
        · rw [List.count_append]
          have h2 : ([Event.append "✅ Pre-flight check passed. All critical columns found.",
              Event.append ("Mapped " ++ toString (env.rows.map mapRow).length
                ++ " rows. Uploading to Supabase..."),
              Event.netInsert]).count Event.netTrain = 0 := by
            rw [List.count_eq_zero]; simp
          rw [h2]
          simpa using hins
        · simp [List.count_cons]
      · simp [List.count_cons]
    · simp [List.count_cons]

/-! ## The claims -/

/-- Claim C2: the header normalization-and-lookup function is a pure,
deterministic function, and any two header strings differing only in
letter case, whitespace or punctuation — that is, with equal case-folded
alphanumeric character sequences — yield the same result: the same
canonical field name, or unmapped for both. -/
theorem claim_C2_mapper_invariant (h1 h2 : String)
    (he : foldedAlnum h1 = foldedAlnum h2) :
    mapColumn h1 = mapColumn h2 := by
  unfold mapColumn
  rw [normalizeHeader_eq_foldedAlnum, normalizeHeader_eq_foldedAlnum, he]

theorem claim_C2_witness :
    foldedAlnum " KOI_teq " = foldedAlnum "koi.teq" ∧
      mapColumn " KOI_teq " = mapColumn "koi.teq" ∧
      mapColumn "koi.teq" = some "equilibrium_temp_K" :=
  ⟨by decide, claim_C2_mapper_invariant " KOI_teq " "koi.teq" (by decide), by decide⟩

/-- Claim C3: for every raw row and every raw header that does not
normalize to a key of the alias table, the transformed row has no key
equal to that header: output keys are only canonical field names from the
table's range plus the injected "source" key, so unmapped columns are
dropped rather than defaulted. -/
theorem claim_C3_unmapped_dropped (h : String) (hh : mapColumn h = none)
    (row : RawRow) :
    (∀ k ∈ (mapRow row).map Prod.fst,
        k ∈ NORMALIZED_COLUMN_MAP.map Prod.snd ∨ k = "source") ∧
      h ∉ (mapRow row).map Prod.fst := by
  refine ⟨fun k hk => mem_keys_mapRow row k hk, ?_⟩
  intro hmem
  rcases mem_keys_mapRow row h hmem with hr | hr
  · have hall : (NORMALIZED_COLUMN_MAP.map Prod.snd).all
        (fun d => (mapColumn d).isSome) = true := by decide
    have hs := List.all_eq_true.1 hall h hr
    rw [hh] at hs
    simp at hs
  · rw [hr] at hh
    exact absurd hh (by decide)

theorem claim_C3_witness :
    mapColumn "kepid" = none ∧
      "kepid" ∉ (mapRow [("kepid", Value.str "42"),
        ("koi_teq", Value.str "300")]).map Prod.fst :=
  ⟨by decide, (claim_C3_unmapped_dropped "kepid" (by decide)
    [("kepid", Value.str "42"), ("koi_teq", Value.str "300")]).2⟩

/-- Claim C4: for every mapped column the Row Transformer writes null
under the canonical key when the cell is an empty or whitespace-only
string and copies every other value (non-blank strings, non-string
values) through unchanged; the row with header koi_teq and an empty cell
becomes equilibrium_temp_K = null plus source = "uploaded_csv". -/
theorem claim_C4_blank_to_null :
    (∀ s : String, jsTrim s = "" → transformValue (.str s) = .null) ∧
      (∀ s : String, jsTrim s ≠ "" → transformValue (.str s) = .str s) ∧
      (∀ n : Int, transformValue (.num n) = .num n) ∧
      transformValue .null = .null ∧
      mapRow [("koi_teq", .str "")] =
        [("equilibrium_temp_K", .null), ("source", .str "uploaded_csv")] := by
  refine ⟨?_, ?_, fun n => rfl, rfl, by decide⟩
  · intro s hs; simp [transformValue, hs]
  · intro s hs; simp [transformValue, hs]

theorem claim_C4_witness :
    jsTrim "   " = "" ∧ transformValue (Value.str "   ") = Value.null :=
  ⟨by decide, claim_C4_blank_to_null.1 "   " (by decide)⟩

/-- Claim C10: the Row Transformer injects source = "uploaded_csv"
whenever the mapped row's source value is falsy — in particular when a
source column is present but blank, which the blank-to-null rule first
turns into null — so the output's source is always a truthy value, never
null. -/
theorem claim_C10_source_injection :
    (∀ row : RawRow, jsTruthy (jsGet (mapRowRaw row) "source") = false →
        jsGet (mapRow row) "source" = some (.str "uploaded_csv")) ∧
      (∀ row : RawRow, ∃ v, jsGet (mapRow row) "source" = some v ∧
        truthy v = true) ∧
      mapRow [("source", .str "  ")] = [("source", .str "uploaded_csv")] := by
  refine ⟨?_, ?_, by decide⟩
  · intro row hfal
    rw [mapRow, if_neg (by simp [hfal]), jsGet_jsSet_same]
  · intro row
    rcases hg : jsGet (mapRowRaw row) "source" with _ | v
    · refine ⟨.str "uploaded_csv", ?_, by decide⟩
      rw [mapRow, if_neg (by simp [jsTruthy, hg]), jsGet_jsSet_same]
    · rcases ht : truthy v with _ | _
      · refine ⟨.str "uploaded_csv", ?_, by decide⟩
        rw [mapRow, if_neg (by simp [jsTruthy, hg, ht]), jsGet_jsSet_same]
      · refine ⟨v, ?_, ht⟩
        rw [mapRow, if_pos (by simp [jsTruthy, hg, ht])]
        exact hg

theorem claim_C10_witness :
    jsTruthy (jsGet (mapRowRaw [("source", Value.str " ")]) "source") = false ∧
      jsGet (mapRow [("source", Value.str " ")]) "source" =
        some (Value.str "uploaded_csv") :=
  ⟨by decide, claim_C10_source_injection.1 [("source", Value.str " ")] (by decide)⟩

/-- Claim C1: for every parsed CSV whose headers contain no alias of
equilibrium_temp_K, the handler appends the two critical-error messages,
resets isTraining to false and returns, and neither the Supabase bulk
insert nor the POST to the training endpoint is attempted. -/
theorem claim_C1_preflight_halts (env : Env) (hf : env.fileSelected = true)
    (htx : env.textRes = none) (hp : env.parseErrors = [])
    (hyp : ∀ hd ∈ env.headers, mapColumn hd ≠ some "equilibrium_temp_K") :
    (∃ t, handlerTrace env =
        t ++ [Event.append criticalMsg1, Event.append criticalMsg2,
          Event.setTraining false]) ∧
      Event.netInsert ∉ handlerTrace env ∧
      Event.netTrain ∉ handlerTrace env := by
  have hmem : "equilibrium_temp_K" ∉ (preflight env.headers).1 := by
    intro hm
    obtain ⟨h, hh, hmc⟩ := mem_preflight env.headers _ hm
    exact hyp h hh hmc
  have htr : handlerTrace env =
      ([Event.setTraining true, Event.clearLog, Event.clearMetrics,
        Event.append "Starting training process...",
        Event.append "Parsing CSV file...",
        Event.append "Running pre-flight check on CSV headers...",
        Event.append ("Found " ++ toString env.headers.length ++ " columns. Mapped "
          ++ toString (preflight env.headers).1.length ++ ".")] ++
       (if (preflight env.headers).2.isEmpty then []
        else [Event.append ("⚠️ Unmapped columns: ["
          ++ String.intercalate ", " (preflight env.headers).2 ++ "]")])) ++
      [Event.append criticalMsg1, Event.append criticalMsg2,
        Event.setTraining false] := by
    simp only [handlerTrace, hf, parsePhase, htx, hp, preflightPhase, if_neg hmem]
    simp
  refine ⟨⟨_, htr⟩, ?_, ?_⟩
  · rw [htr]
    intro hmm
    rcases List.mem_append.1 hmm with h | h
    · rcases List.mem_append.1 h with h2 | h2
      · simp at h2
      · revert h2; split <;> simp
    · simp at h
  · rw [htr]
    intro hmm
    rcases List.mem_append.1 hmm with h | h
    · rcases List.mem_append.1 h with h2 | h2
      · simp at h2
      · revert h2; split <;> simp
    · simp at h

theorem claim_C1_witness :
    (∀ hd ∈ ["kepid", "koi_period"], mapColumn hd ≠ some "equilibrium_temp_K") ∧
      Event.netInsert ∉ handlerTrace
        ⟨true, none, [], ["kepid", "koi_period"], [], .ok,
          .responded true none false⟩ :=
  ⟨by decide, (claim_C1_preflight_halts
    ⟨true, none, [], ["kepid", "koi_period"], [], .ok, .responded true none false⟩
    rfl rfl rfl (by decide)).2.1⟩

/-- Claim C5: if the Supabase bulk insert returns an error the handler
appends the insert-error message, resets isTraining and returns, so the
multipart POST to the training endpoint is never attempted; and neither
network stage is ever attempted more than once in a submission. -/
theorem claim_C5_insert_failure (env : Env) (m : String)
    (hie : env.insertRes = .errRes m)
    (hf : env.fileSelected = true) (htx : env.textRes = none)
    (hp : env.parseErrors = [])
    (hq : "equilibrium_temp_K" ∈ (preflight env.headers).1) :
    (∃ t, handlerTrace env = t ++ [Event.netInsert,
        Event.append ("❌ Supabase table insert error: " ++ m),
        Event.setTraining false]) ∧
      Event.netTrain ∉ handlerTrace env ∧
      (∀ env2 : Env, (handlerTrace env2).count Event.netInsert ≤ 1 ∧
        (handlerTrace env2).count Event.netTrain ≤ 1) := by
  obtain ⟨t, htr, hsh⟩ := handlerTrace_path env hf htx hp hq
  have hip : insertPhase env =
      [Event.append ("❌ Supabase table insert error: " ++ m),
       Event.setTraining false] := by
    unfold insertPhase; rw [hie]
  refine ⟨⟨[Event.setTraining true, Event.clearLog] ++ t, ?_⟩, ?_,
    fun env2 => ⟨count_netInsert_handlerTrace env2, count_netTrain_handlerTrace env2⟩⟩
  · rw [htr, hip]
    simp [List.append_assoc]
  · intro hmm
    rcases shape_handlerTrace env _ hmm with h | h | h | h | h | h
    · simp at h
    · rw [hip] at h; simp at h
    · obtain ⟨m2, h⟩ := h; simp at h
    · obtain ⟨b, h⟩ := h; simp at h
    · simp at h
    · simp at h

theorem claim_C5_witness :
    "equilibrium_temp_K" ∈ (preflight ["koi_teq"]).1 ∧
      Event.netTrain ∉ handlerTrace
        ⟨true, none, [], ["koi_teq"], [], .errRes "duplicate key",
          .responded true none false⟩ :=
  ⟨by decide, (claim_C5_insert_failure
    ⟨true, none, [], ["koi_teq"], [], .errRes "duplicate key",
      .responded true none false⟩
    "duplicate key" rfl rfl rfl rfl (by decide)).2.1⟩

/-- Claim C9: the status log is cleared exactly once at the start of each
submission — the trace begins with setting the in-flight flag and the
clear, and no later event clears again — and replaying any clear-free
trace only extends the log, so each earlier log state is a prefix of
every later one. -/
theorem claim_C9_log_append_only (env : Env) (hf : env.fileSelected = true) :
    (∃ t, handlerTrace env = [Event.setTraining true, Event.clearLog] ++ t ∧
        Event.clearLog ∉ t) ∧
      (∀ (t1 t2 : List Event) (s : UIState), Event.clearLog ∉ t2 →
        ∃ t3, (runTrace s (t1 ++ t2)).log = (runTrace s t1).log ++ t3) := by
  constructor
  · refine ⟨[Event.clearMetrics,
      Event.append "Starting training process...",
      Event.append "Parsing CSV file..."] ++ parsePhase env, ?_, ?_⟩
    · simp [handlerTrace, hf]
    · intro hm
      rcases List.mem_append.1 hm with h | h
      · simp at h
      · exact clearLog_not_mem_parsePhase env h
  · intro t1 t2 s h
    exact ⟨appendsOf t2, by rw [runTrace_append, runTrace_log_no_clear t2 h]⟩

theorem claim_C9_witness :
    ∃ t, handlerTrace
        ⟨true, none, [], ["koi_teq"], [], .ok, .responded true none true⟩ =
      [Event.setTraining true, Event.clearLog] ++ t ∧ Event.clearLog ∉ t :=
  (claim_C9_log_append_only
    ⟨true, none, [], ["koi_teq"], [], .ok, .responded true none true⟩ rfl).1

/-- Claim C6 counterexample: after a successful bulk insert, a non-2xx
response whose error field is exactly "Failed to fetch" produces a
thrown message that the catch filter suppresses, so the final log
contains no training-error entry at all, against the claim's demand that
one follow the insert-success entry. -/
theorem claim_C6_counterexample :
    (runTrace initState (handlerTrace
        ⟨true, none, [], ["koi_teq"], [], .ok,
          .responded false (some "Failed to fetch") false⟩)).log =
      ["Starting training process...", "Parsing CSV file...",
       "Running pre-flight check on CSV headers...",
       "Found 1 columns. Mapped 1.",
       "✅ Pre-flight check passed. All critical columns found.",
       "Mapped 0 rows. Uploading to Supabase...",
       "✅ Data uploaded to Supabase table.",
       "Uploading file and starting model training..."] ∧
      ("❌ Error: " ++ errMsgOf (some "Failed to fetch")) ∉
        (runTrace initState (handlerTrace
          ⟨true, none, [], ["koi_teq"], [], .ok,
            .responded false (some "Failed to fetch") false⟩)).log := by
  constructor <;> decide

/-- Claim C6 (amended): when the bulk insert succeeds and the training
endpoint responds with a non-2xx status, provided the resulting message
(the response's error field, or "Unknown error occurred") is not exactly
"Failed to fetch", the log contains the insert-success entry followed
later by the training-error entry, and isTraining is false when the
handler finishes. -/
theorem claim_C6_success_then_error (env : Env) (hf : env.fileSelected = true)
    (htx : env.textRes = none) (hp : env.parseErrors = [])
    (hq : "equilibrium_temp_K" ∈ (preflight env.headers).1)
    (hie : env.insertRes = .ok) (errField : Option String) (hMJ : Bool)
    (htr2 : env.trainRes = .responded false errField hMJ)
    (hne : errMsgOf errField ≠ "Failed to fetch") :
    List.Sublist ["✅ Data uploaded to Supabase table.",
        "❌ Error: " ++ errMsgOf errField]
      (runTrace initState (handlerTrace env)).log ∧
      (runTrace initState (handlerTrace env)).isTraining = false := by
  obtain ⟨t, htr, hsh⟩ := handlerTrace_path env hf htx hp hq
  have hip : insertPhase env =
      [Event.append "✅ Data uploaded to Supabase table.",
       Event.append "Uploading file and starting model training...",
       Event.netTrain,
       Event.append ("❌ Error: " ++ errMsgOf errField),
       Event.setTraining false] := by
    unfold insertPhase
    rw [hie, htr2]
    simp [trainPhase, trainCatch, if_neg hne]
  have hnoclear : Event.clearLog ∉
      t ++ [Event.netInsert] ++ insertPhase env := by
    intro hm
    rcases List.mem_append.1 hm with h | h
    · rcases List.mem_append.1 h with h2 | h2
      · rcases hsh _ h2 with ⟨m2, h3⟩ | h3 <;> simp at h3
      · simp at h2
    · exact clearLog_not_mem_insertPhase env h
  have hsplit : handlerTrace env =
      [Event.setTraining true, Event.clearLog] ++
        (t ++ [Event.netInsert] ++ insertPhase env) := by
    rw [htr]; simp [List.append_assoc]
  have hlog : (runTrace initState (handlerTrace env)).log =
      appendsOf (t ++ [Event.netInsert] ++ insertPhase env) := by
    rw [hsplit, runTrace_append, runTrace_log_no_clear _ hnoclear]
    rfl
  constructor
  · rw [hlog, hip]
    rw [appendsOf, List.filterMap_append, List.filterMap_append]
    refine List.Sublist.trans ?_ (List.sublist_append_right _ _)
    show List.Sublist _ ["✅ Data uploaded to Supabase table.",
      "Uploading file and starting model training...",
      "❌ Error: " ++ errMsgOf errField]
    exact List.Sublist.cons₂ _ (List.Sublist.cons _ (List.Sublist.refl _))
  · refine runTrace_isTraining_end _ _
      ⟨[Event.setTraining true, Event.clearLog] ++ t ++ [Event.netInsert] ++
        [Event.append "✅ Data uploaded to Supabase table.",
         Event.append "Uploading file and starting model training...",
         Event.netTrain,
         Event.append ("❌ Error: " ++ errMsgOf errField)], ?_⟩
    rw [htr, hip]
    simp [List.append_assoc]

theorem claim_C6_witness :
    errMsgOf (some "server exploded") ≠ "Failed to fetch" ∧
      List.Sublist ["✅ Data uploaded to Supabase table.",
          "❌ Error: " ++ errMsgOf (some "server exploded")]
        (runTrace initState (handlerTrace
          ⟨true, none, [], ["koi_teq"], [], .ok,
            .responded false (some "server exploded") false⟩)).log :=
  ⟨by decide, (claim_C6_success_then_error
    ⟨true, none, [], ["koi_teq"], [], .ok,
      .responded false (some "server exploded") false⟩
    rfl rfl rfl (by decide) rfl (some "server exploded") false rfl (by decide)).1⟩

/-- Claim C7: in the training-call error handler, an error whose message
is exactly "Failed to fetch" appends no log entry, while an error with
any other message appends exactly one "❌ Error: ..." entry; in both
cases isTraining is reset to false and the handler terminates normally
(the trace is total, no exception escapes). -/
theorem claim_C7_fetch_filter (env : Env) (m : String)
    (hf : env.fileSelected = true) (htx : env.textRes = none)
    (hp : env.parseErrors = [])
    (hq : "equilibrium_temp_K" ∈ (preflight env.headers).1)
    (hie : env.insertRes = .ok) (htr2 : env.trainRes = .threw m) :
    (∃ t, Event.netTrain ∉ t ∧
        handlerTrace env = t ++ [Event.netTrain] ++
          (if m = "Failed to fetch" then []
           else [Event.append ("❌ Error: " ++ m)]) ++
          [Event.setTraining false]) ∧
      (runTrace initState (handlerTrace env)).isTraining = false := by
  obtain ⟨t, htr, hsh⟩ := handlerTrace_path env hf htx hp hq
  have hip : insertPhase env =
      [Event.append "✅ Data uploaded to Supabase table.",
       Event.append "Uploading file and starting model training...",
       Event.netTrain] ++
        (if m = "Failed to fetch" then []
         else [Event.append ("❌ Error: " ++ m)]) ++
        [Event.setTraining false] := by
    unfold insertPhase
    rw [hie, htr2]
    simp [trainPhase, trainCatch]
  constructor
  · refine ⟨[Event.setTraining true, Event.clearLog] ++ t ++
      [Event.netInsert] ++
      [Event.append "✅ Data uploaded to Supabase table.",
       Event.append "Uploading file and starting model training..."], ?_, ?_⟩
    · intro hm
      rcases List.mem_append.1 hm with h | h
      · rcases List.mem_append.1 h with h2 | h2
        · rcases List.mem_append.1 h2 with h3 | h3
          · simp at h3
          · rcases hsh _ h3 with ⟨m2, h4⟩ | h4 <;> simp at h4
        · simp at h2
      · simp at h
    · rw [htr, hip]
      simp [List.append_assoc]
  · refine runTrace_isTraining_end _ _
      ⟨[Event.setTraining true, Event.clearLog] ++ t ++ [Event.netInsert] ++
        ([Event.append "✅ Data uploaded to Supabase table.",
          Event.append "Uploading file and starting model training...",
          Event.netTrain] ++
          (if m = "Failed to fetch" then []
           else [Event.append ("❌ Error: " ++ m)])), ?_⟩
    rw [htr, hip]
    simp [List.append_assoc]

theorem claim_C7_witness :
    "equilibrium_temp_K" ∈ (preflight ["koi_teq"]).1 ∧
      (runTrace initState (handlerTrace
        ⟨true, none, [], ["koi_teq"], [], .ok,
          .threw "Failed to fetch"⟩)).isTraining = false :=
  ⟨by decide, (claim_C7_fetch_filter
    ⟨true, none, [], ["koi_teq"], [], .ok, .threw "Failed to fetch"⟩
    "Failed to fetch" rfl rfl rfl (by decide) rfl rfl).2⟩

/-- Claim C8: the multipart form contains exactly the raw file plus the
eight named hyperparameter fields, and the train_test_split value equals
trainTestSplit/100, which for the slider's integer bounds 50 to 90 is a
fraction in the interval from one half to nine tenths, strictly between
0 and 1. -/
theorem claim_C8_form_fields (t : ℕ) (f : FormState)
    (h1 : 50 ≤ t) (h2 : t ≤ 90) :
    (buildFormData t f).map Prod.fst =
      ["file", "train_test_split", "cv_folds", "rf_estimators",
       "xgb_estimators", "lgbm_estimators", "xgb_max_depth",
       "lgbm_max_depth", "learning_rate"] ∧
      (buildFormData t f).get? 1 =
        some ("train_test_split", .frac (splitFraction t)) ∧
      0 < splitFraction t ∧ splitFraction t < 1 ∧
      1/2 ≤ splitFraction t ∧ splitFraction t ≤ 9/10 := by
  have ha : (50 : ℚ) ≤ (t : ℚ) := by exact_mod_cast h1
  have hb : (t : ℚ) ≤ 90 := by exact_mod_cast h2
  refine ⟨rfl, rfl, ?_, ?_, ?_, ?_⟩ <;> (unfold splitFraction; linarith)

theorem claim_C8_witness :
    50 ≤ 80 ∧ 80 ≤ 90 ∧ 0 < splitFraction 80 ∧ splitFraction 80 < 1 :=
  ⟨by decide, by decide,
    (claim_C8_form_fields 80 ⟨"5", "100", "100", "100", "15", "7", "0.05"⟩
      (by decide) (by decide)).2.2.1,
    (claim_C8_form_fields 80 ⟨"5", "100", "100", "100", "15", "7", "0.05"⟩
      (by decide) (by decide)).2.2.2.1⟩

end NasaDoha
